import Mathlib

/-!
Shallow embedding of the `image-bg-extender` pipeline (`src/lib.rs`).

The pipeline normalises a raster image to a target aspect ratio:
`div` computes multiplier/overflow per axis, `normalise_image` trims the
overflow symmetrically, `aggregate_edge_colors` samples two edge strips and
reduces each to a single color, `calculate_canvas_dimensions` sizes the
output canvas from the ratio and a multiplier (u32 multiplication, modeled
with an explicit `% 2 ^ 32`), `create_split_background` paints a two-tone
background, and `compile_image` orchestrates the whole job, short-circuiting
to a byte-identical file copy when the image already matches the ratio.

Machine integers (`u32`) are modeled as `Nat`, with `% 2 ^ 32` inserted
exactly where the Rust code performs unchecked multiplication, and with
`Nat` truncated subtraction standing in for `saturating_sub`.  The f32
arithmetic of `calculate_edge_length` is modeled exactly: an f32 value is a
natural-number significand of at most 24 bits times a power of two, and both
the `u32 as f32` conversion and the product with the f32 literal `0.05`
round to nearest, ties to even.  The nearest-neighbor 1x1 downscale used by
`average_color` lives in the external `image` crate; it is modeled as an
explicit function parameter (`average_color`) so every theorem quantifies
over it.
-/

namespace ImageBgExtender

/-- RGBA color with 8-bit channels (channel values as `Nat`). -/
structure Rgba where
  r : Nat
  g : Nat
  b : Nat
  a : Nat
deriving DecidableEq

/-- The two-valued orientation tag from `src/lib.rs`. -/
inductive Orientation where
  | Landscape
  | Portrait
deriving DecidableEq

/-- A decoded in-memory raster: dimensions plus a pixel lookup function. -/
structure Image where
  width : Nat
  height : Nat
  pix : Nat → Nat → Rgba

/-- Source `div`: `(base / modulo, base % modulo)` (integer division). -/
def div (base modulo : Nat) : Nat × Nat := (base / modulo, base % modulo)

/-- Binary digit count of `n`, with explicit fuel (64 covers every value the
pipeline produces, all of which are below `2 ^ 64`). -/
def sizeAux : Nat → Nat → Nat
  | 0, _ => 0
  | fuel + 1, n => if n = 0 then 0 else sizeAux fuel (n / 2) + 1

/-- Binary digit count of `n` (for `n < 2 ^ 64`). -/
def bitlen (n : Nat) : Nat := sizeAux 64 n

/-- Round `n / 2 ^ s` to the nearest integer, ties to even
(the IEEE-754 default rounding used by Rust's f32 arithmetic). -/
def rne (n s : Nat) : Nat :=
  let q := n / 2 ^ s
  let r := n % 2 ^ s
  if 2 * r < 2 ^ s then q
  else if 2 ^ s < 2 * r then q + 1
  else if q % 2 = 0 then q else q + 1

/-- Round a nonnegative integer to at most 24 significant binary digits (the
f32 significand width), to nearest, ties to even.  Scaling by a power of two
commutes with this operation, so it models f32 rounding of any value whose
scaled significand is the given integer. -/
def round24 (n : Nat) : Nat :=
  if n < 2 ^ 24 then n
  else
    let s := bitlen n - 24
    rne n s * 2 ^ s

/-- Source `calculate_edge_length`: `(length as f32 * 0.05).floor() as u32`.
The f32 nearest to `0.05` is `13421773 / 2 ^ 28`, so the product of the
rounded `length` with it, scaled by `2 ^ 28`, is `round24 length * 13421773`;
that product is itself rounded to f32 precision, floored (division by
`2 ^ 28`), and the `as u32` cast saturates at `u32::MAX`. -/
def calculate_edge_length (length : Nat) : Nat :=
  min (round24 (round24 length * 13421773) / 2 ^ 28) (2 ^ 32 - 1)

/-- `image` crate `crop_imm` semantics: the requested rectangle is clamped to
the source bounds (`crop_dimms`), and the resulting view reads the source at
the clamped offset. -/
def crop_imm (img : Image) (x y w h : Nat) : Image :=
  let x2 := min x img.width
  let y2 := min y img.height
  let w2 := min w (img.width - x2)
  let h2 := min h (img.height - y2)
  { width := w2, height := h2, pix := fun i j => img.pix (x2 + i) (y2 + j) }

/-- `RgbaImage::new`: a buffer of the given dimensions with all channels 0. -/
def Image.new (w h : Nat) : Image :=
  { width := w, height := h, pix := fun _ _ => ⟨0, 0, 0, 0⟩ }

/-- `put_pixel`: overwrite one pixel of the buffer. -/
def put_pixel (img : Image) (x y : Nat) (c : Rgba) : Image :=
  { img with pix := fun i j => if i = x ∧ j = y then c else img.pix i j }

/-- `GenericImage::copy_from` pixel effect: overlay `other` on `img` with its
top-left corner at `(x, y)` (the bounds check lives in `compile_image`). -/
def copy_from (img other : Image) (x y : Nat) : Image :=
  { img with
    pix := fun i j =>
      if x ≤ i ∧ i < x + other.width ∧ y ≤ j ∧ j < y + other.height then
        other.pix (i - x) (j - y)
      else img.pix i j }

/-- Source `aggregate_edge_colors`: sample two strips of `edge_length`
thickness from the trimmed image (top/bottom rows for Landscape, left/right
columns for Portrait) and reduce each to one color with `average_color`
(the external nearest-neighbor 1x1 downscale, passed as a parameter). -/
def aggregate_edge_colors (average_color : Image → Rgba) (base_img : Image)
    (orient : Orientation) : Rgba × Rgba :=
  match orient with
  | Orientation.Landscape =>
    let edge_length := calculate_edge_length base_img.height
    (average_color (crop_imm base_img 0 0 base_img.width edge_length),
     average_color
       (crop_imm base_img 0 (base_img.height - edge_length) base_img.width edge_length))
  | Orientation.Portrait =>
    let edge_length := calculate_edge_length base_img.width
    (average_color (crop_imm base_img 0 0 edge_length base_img.height),
     average_color
       (crop_imm base_img (base_img.width - edge_length) 0 edge_length base_img.height))

/-- Source `normalise_image`: crop away the overflow, split evenly between
the two sides (the retained region starts at `(wo / 2, ho / 2)`). -/
def normalise_image (img : Image) (overflow : Nat × Nat) : Image :=
  crop_imm img (overflow.1 / 2) (overflow.2 / 2)
    (img.width - overflow.1) (img.height - overflow.2)

/-- Source `calculate_canvas_dimensions`.  The Rust multiplications are
unchecked `u32 * u32`, so each product is reduced `% 2 ^ 32`. -/
def calculate_canvas_dimensions (ratio : Nat × Nat) (mult : Nat × Nat)
    (orient : Orientation) : Nat × Nat :=
  match orient with
  | Orientation.Landscape =>
    (ratio.1 * mult.1 % 2 ^ 32, ratio.2 * mult.1 % 2 ^ 32)
  | Orientation.Portrait =>
    (ratio.1 * mult.2 % 2 ^ 32, ratio.2 * mult.2 % 2 ^ 32)

/-- The orientation decision inlined in `compile_image`:
Landscape exactly when the width multiplier is strictly larger. -/
def orientation (width_multiplier height_multiplier : Nat) : Orientation :=
  if width_multiplier > height_multiplier then Orientation.Landscape
  else Orientation.Portrait

/-- Source `create_split_background`: paint every pixel of the canvas.
For Landscape, rows with `y > height / 2` get `first_color` and the rest get
`second_color`; for Portrait, columns with `x < width / 2` get `first_color`
and the rest get `second_color`.  The imperative double loops become nested
folds over `List.range`. -/
def create_split_background (canvas : Image) (first_color second_color : Rgba)
    (orient : Orientation) : Image :=
  let width := canvas.width
  let height := canvas.height
  match orient with
  | Orientation.Landscape =>
    (List.range height).foldl
      (fun cv y =>
        (List.range width).foldl
          (fun cv2 x =>
            put_pixel cv2 x y (if y > height / 2 then first_color else second_color))
          cv)
      canvas
  | Orientation.Portrait =>
    (List.range width).foldl
      (fun cv x =>
        (List.range height).foldl
          (fun cv2 y =>
            put_pixel cv2 x y (if x < width / 2 then first_color else second_color))
          cv)
      canvas

/-- Outcome of one `compile_image` job, abstracting the file I/O:
`copied` is the byte-identical copy short-circuit, `composited` carries the
image written to the destination, `copyError` is the error propagated from
the `copy_from` bounds check. -/
inductive CompileResult where
  | copied : CompileResult
  | composited : Image → CompileResult
  | copyError : CompileResult

/-- Source `compile_image` on an already-decoded image.  `ratio` is the
target aspect ratio; `average_color` is the external 1x1 nearest-neighbor
downscale.  `saturating_sub` is `Nat` subtraction; `std::cmp::max(_, 0)` is
kept verbatim. -/
def compile_image (average_color : Image → Rgba) (img : Image)
    (ratio : Nat × Nat) : CompileResult :=
  let wdiv := div img.width ratio.1
  let hdiv := div img.height ratio.2
  if ¬(wdiv.2 = 0 ∧ hdiv.2 = 0 ∧ wdiv.1 = hdiv.1) then
    let orient := orientation wdiv.1 hdiv.1
    let timg := normalise_image img (wdiv.2, hdiv.2)
    let edges := aggregate_edge_colors average_color timg orient
    let canvas := calculate_canvas_dimensions ratio (wdiv.1, hdiv.1) orient
    let bg := create_split_background (Image.new canvas.1 canvas.2) edges.1 edges.2 orient
    let x_off := max ((canvas.1 - timg.width) / 2) 0
    let y_off := max ((canvas.2 - timg.height) / 2) 0
    if timg.width + x_off ≤ canvas.1 ∧ timg.height + y_off ≤ canvas.2 then
      CompileResult.composited (copy_from bg timg x_off y_off)
    else
      CompileResult.copyError
  else
    CompileResult.copied

/-! ## Helper lemmas -/

lemma normalise_image_dims (img : Image) (wo ho : Nat)
    (hw : wo ≤ img.width) (hh : ho ≤ img.height) :
    (normalise_image img (wo, ho)).width = img.width - wo ∧
    (normalise_image img (wo, ho)).height = img.height - ho := by
  unfold normalise_image crop_imm
  constructor <;> simp <;> omega

/-! ## Claim theorems -/

/-- Claim C1: a source image whose dimensions satisfy `W % rw = 0`,
`H % rh = 0` and `W / rw = H / rh` takes the short-circuit path of
`compile_image`: the result is the byte-identical file copy (`copied`), with
no decode-based re-encode.  The decision depends only on the dimensions and
the ratio, so re-running on the (byte-identical, hence same-dimensioned)
output takes the same path again. -/
theorem compile_image_copy_path (average_color : Image → Rgba) (img : Image)
    (rw rh : Nat) (h1 : img.width % rw = 0) (h2 : img.height % rh = 0)
    (h3 : img.width / rw = img.height / rh) :
    compile_image average_color img (rw, rh) = CompileResult.copied := by
  simp only [compile_image, div]
  rw [if_neg (not_not_intro ⟨h1, h2, h3⟩)]

/-- Witness for `compile_image_copy_path`: an 8x8 image with ratio (4, 4). -/
theorem compile_image_copy_path_witness :
    ((8 : Nat) % 4 = 0 ∧ (8 : Nat) % 4 = 0 ∧ (8 : Nat) / 4 = 8 / 4) ∧
    compile_image (fun _ => ⟨0, 0, 0, 0⟩) ⟨8, 8, fun _ _ => ⟨1, 2, 3, 4⟩⟩ (4, 4)
      = CompileResult.copied :=
  ⟨⟨by decide, by decide, by decide⟩,
   compile_image_copy_path (fun _ => ⟨0, 0, 0, 0⟩) ⟨8, 8, fun _ _ => ⟨1, 2, 3, 4⟩⟩
     4 4 (by decide) (by decide) (by decide)⟩

/-- Claim C5: `normalise_image` with overflows `wo = W % rw`, `ho = H % rh`
returns exactly the region starting at `(wo / 2, ho / 2)` of size
`(W - wo, H - ho)`; the trimmed width is divisible by `rw`, the trimmed
height by `rh`, and `multiplier * ratioComponent + overflow = sourceDim` on
each axis. -/
theorem normalise_image_spec (rw rh i j : Nat) (img : Image)
    (hi : i < img.width - img.width % rw)
    (hj : j < img.height - img.height % rh) :
    (normalise_image img (img.width % rw, img.height % rh)).width
        = img.width - img.width % rw ∧
    (normalise_image img (img.width % rw, img.height % rh)).height
        = img.height - img.height % rh ∧
    (normalise_image img (img.width % rw, img.height % rh)).pix i j
        = img.pix (img.width % rw / 2 + i) (img.height % rh / 2 + j) ∧
    rw ∣ (img.width - img.width % rw) ∧
    rh ∣ (img.height - img.height % rh) ∧
    img.width / rw * rw + img.width % rw = img.width ∧
    img.height / rh * rh + img.height % rh = img.height := by
  have hwo : img.width % rw ≤ img.width := Nat.mod_le _ _
  have hho : img.height % rh ≤ img.height := Nat.mod_le _ _
  have hdw : img.width - img.width % rw = rw * (img.width / rw) := by
    have := Nat.div_add_mod img.width rw
    omega
  have hdh : img.height - img.height % rh = rh * (img.height / rh) := by
    have := Nat.div_add_mod img.height rh
    omega
  refine ⟨?_, ?_, ?_, ⟨_, hdw⟩, ⟨_, hdh⟩, Nat.div_add_mod' _ _, Nat.div_add_mod' _ _⟩
  · unfold normalise_image crop_imm
    simp
    omega
  · unfold normalise_image crop_imm
    simp
    omega
  · unfold normalise_image crop_imm
    simp only
    rw [show min (img.width % rw / 2) img.width = img.width % rw / 2 by omega,
        show min (img.height % rh / 2) img.height = img.height % rh / 2 by omega]

/-- Witness for `normalise_image_spec`: a 7x5 image with ratio (2, 3). -/
theorem normalise_image_spec_witness :
    (0 < (7 : Nat) - 7 % 2) ∧ (0 < (5 : Nat) - 5 % 3) ∧
    (normalise_image ⟨7, 5, fun i j => ⟨i, j, 0, 255⟩⟩ (7 % 2, 5 % 3)).pix 0 0
      = Image.pix ⟨7, 5, fun i j => ⟨i, j, 0, 255⟩⟩ (7 % 2 / 2 + 0) (5 % 3 / 2 + 0) :=
  ⟨by decide, by decide,
   (normalise_image_spec 2 3 0 0 ⟨7, 5, fun i j => ⟨i, j, 0, 255⟩⟩
       (by decide) (by decide)).2.2.1⟩

/-- Claim C6: on the non-conformant path, orientation is `Landscape` exactly
when `widthMultiplier > heightMultiplier` and `Portrait` otherwise; in
particular equal multipliers (with some nonzero overflow) give `Portrait`. -/
theorem orientation_spec (W H rw rh : Nat)
    (hnc : ¬(W % rw = 0 ∧ H % rh = 0 ∧ W / rw = H / rh)) :
    (orientation (W / rw) (H / rh) = Orientation.Landscape ↔ H / rh < W / rw) ∧
    (orientation (W / rw) (H / rh) = Orientation.Portrait ↔ W / rw ≤ H / rh) ∧
    (W / rw = H / rh → orientation (W / rw) (H / rh) = Orientation.Portrait) := by
  unfold orientation
  by_cases hc : H / rh < W / rw
  · rw [if_pos hc]
    exact ⟨⟨fun _ => hc, fun _ => rfl⟩,
           ⟨fun hco => Orientation.noConfusion hco, fun hle => absurd hc (by omega)⟩,
           fun heq => absurd hc (by omega)⟩
  · rw [if_neg hc]
    exact ⟨⟨fun hco => Orientation.noConfusion hco, fun hlt => absurd hlt hc⟩,
           ⟨fun _ => by omega, fun _ => rfl⟩,
           fun _ => rfl⟩

/-- Witness for `orientation_spec`: a 10x11 image with ratio (1, 1) is
non-conformant and classified Portrait. -/
theorem orientation_spec_witness :
    ¬((10 : Nat) % 1 = 0 ∧ (11 : Nat) % 1 = 0 ∧ (10 : Nat) / 1 = 11 / 1) ∧
    (orientation ((10 : Nat) / 1) ((11 : Nat) / 1) = Orientation.Portrait ↔
      (10 : Nat) / 1 ≤ 11 / 1) :=
  ⟨by decide, (orientation_spec 10 11 1 1 (by decide)).2.1⟩

lemma put_pixel_pix (img : Image) (x y i j : Nat) (c : Rgba) :
    (put_pixel img x y c).pix i j = if i = x ∧ j = y then c else img.pix i j := rfl

lemma fold_put_row (y : Nat) (c : Rgba) :
    ∀ (n : Nat) (cv : Image) (i j : Nat),
      ((List.range n).foldl (fun cv2 x => put_pixel cv2 x y c) cv).pix i j
        = if i < n ∧ j = y then c else cv.pix i j := by
  intro n
  induction n with
  | zero => intro cv i j; simp
  | succ n ih =>
    intro cv i j
    rw [List.range_succ, List.foldl_append]
    simp only [List.foldl_cons, List.foldl_nil, put_pixel_pix]
    rw [ih]
    split_ifs <;> first | rfl | omega
  
lemma fold_put_col (x : Nat) (c : Rgba) :
    ∀ (n : Nat) (cv : Image) (i j : Nat),
      ((List.range n).foldl (fun cv2 y => put_pixel cv2 x y c) cv).pix i j
        = if i = x ∧ j < n then c else cv.pix i j := by
  intro n
  induction n with
  | zero => intro cv i j; simp
  | succ n ih =>
    intro cv i j
    rw [List.range_succ, List.foldl_append]
    simp only [List.foldl_cons, List.foldl_nil, put_pixel_pix]
    rw [ih]
    split_ifs <;> first | rfl | omega

lemma fold_rows (w : Nat) (col : Nat → Rgba) :
    ∀ (m : Nat) (cv : Image) (i j : Nat),
      ((List.range m).foldl
          (fun cv y => (List.range w).foldl (fun cv2 x => put_pixel cv2 x y (col y)) cv)
          cv).pix i j
        = if i < w ∧ j < m then col j else cv.pix i j := by
  intro m
  induction m with
  | zero => intro cv i j; simp
  | succ m ih =>
    intro cv i j
    rw [List.range_succ, List.foldl_append]
    simp only [List.foldl_cons, List.foldl_nil]
    rw [fold_put_row, ih]
    by_cases h1 : i < w ∧ j = m
    · rw [if_pos h1, if_pos ⟨h1.1, by omega⟩, h1.2]
    · rw [if_neg h1]
      by_cases h2 : i < w ∧ j < m
      · rw [if_pos h2, if_pos ⟨h2.1, by omega⟩]
      · rw [if_neg h2, if_neg (by omega)]

lemma fold_cols (h : Nat) (col : Nat → Rgba) :
    ∀ (m : Nat) (cv : Image) (i j : Nat),
      ((List.range m).foldl
          (fun cv x => (List.range h).foldl (fun cv2 y => put_pixel cv2 x y (col x)) cv)
          cv).pix i j
        = if i < m ∧ j < h then col i else cv.pix i j := by
  intro m
  induction m with
  | zero => intro cv i j; simp
  | succ m ih =>
    intro cv i j
    rw [List.range_succ, List.foldl_append]
    simp only [List.foldl_cons, List.foldl_nil]
    rw [fold_put_col, ih]
    by_cases h1 : i = m ∧ j < h
    · rw [if_pos h1, if_pos ⟨by omega, h1.2⟩, h1.1]
    · rw [if_neg h1]
      by_cases h2 : i < m ∧ j < h
      · rw [if_pos h2, if_pos ⟨by omega, h2.2⟩]
      · rw [if_neg h2, if_neg (by omega)]

lemma foldl_preserves_dims (step : Image → Nat → Image)
    (hstep : ∀ cv k, (step cv k).width = cv.width ∧ (step cv k).height = cv.height) :
    ∀ (l : List Nat) (cv : Image),
      ((l.foldl step cv).width = cv.width ∧ (l.foldl step cv).height = cv.height) := by
  intro l
  induction l with
  | nil => intro cv; exact ⟨rfl, rfl⟩
  | cons a l ih =>
    intro cv
    simp only [List.foldl_cons]
    have h1 := hstep cv a
    have h2 := ih (step cv a)
    exact ⟨h2.1.trans h1.1, h2.2.trans h1.2⟩

/-- Painting the split background leaves the canvas dimensions unchanged
(the Rust code mutates the buffer in place), so `compile_image` may check
the `copy_from` bounds against the canvas dimensions directly. -/
lemma create_split_background_dims (canvas : Image)
    (first_color second_color : Rgba) (orient : Orientation) :
    (create_split_background canvas first_color second_color orient).width
        = canvas.width ∧
    (create_split_background canvas first_color second_color orient).height
        = canvas.height := by
  cases orient <;>
    · simp only [create_split_background]
      apply foldl_preserves_dims
      intro cv k
      apply foldl_preserves_dims
      intro cv2 k2
      exact ⟨rfl, rfl⟩

/-- Claim C2: `create_split_background` paints, for Landscape, every pixel of
a row with `y > height / 2` with `first_color` (the color sampled from the
top strip — the cross-wired mapping) and every pixel of a row with
`y ≤ height / 2` with `second_color` (from the bottom strip); for Portrait,
every pixel of a column with `x < width / 2` with `first_color` (left strip)
and the remaining columns with `second_color` (right strip). -/
theorem create_split_background_spec (canvas : Image)
    (first_color second_color : Rgba) (x y : Nat)
    (hx : x < canvas.width) (hy : y < canvas.height) :
    (create_split_background canvas first_color second_color
        Orientation.Landscape).pix x y
      = (if y > canvas.height / 2 then first_color else second_color) ∧
    (create_split_background canvas first_color second_color
        Orientation.Portrait).pix x y
      = (if x < canvas.width / 2 then first_color else second_color) := by
  constructor
  · show ((List.range canvas.height).foldl
        (fun cv yy => (List.range canvas.width).foldl
          (fun cv2 xx => put_pixel cv2 xx yy
            (if yy > canvas.height / 2 then first_color else second_color)) cv)
        canvas).pix x y = _
    rw [fold_rows canvas.width
        (fun yy => if yy > canvas.height / 2 then first_color else second_color)
        canvas.height canvas x y]
    rw [if_pos ⟨hx, hy⟩]
  · show ((List.range canvas.width).foldl
        (fun cv xx => (List.range canvas.height).foldl
          (fun cv2 yy => put_pixel cv2 xx yy
            (if xx < canvas.width / 2 then first_color else second_color)) cv)
        canvas).pix x y = _
    rw [fold_cols canvas.height
        (fun xx => if xx < canvas.width / 2 then first_color else second_color)
        canvas.width canvas x y]
    rw [if_pos ⟨hx, hy⟩]

/-- Witness for `create_split_background_spec`: a 4x4 canvas; the pixel at
`(1, 3)` lies in the bottom half (`3 > 2`) and receives the first color. -/
theorem create_split_background_spec_witness :
    (1 : Nat) < 4 ∧ (3 : Nat) < 4 ∧
    (create_split_background ⟨4, 4, fun _ _ => ⟨0, 0, 0, 0⟩⟩
        ⟨10, 0, 0, 255⟩ ⟨0, 20, 0, 255⟩ Orientation.Landscape).pix 1 3
      = (if (3 : Nat) > 4 / 2 then (⟨10, 0, 0, 255⟩ : Rgba) else ⟨0, 20, 0, 255⟩) :=
  ⟨by decide, by decide,
   (create_split_background_spec ⟨4, 4, fun _ _ => ⟨0, 0, 0, 0⟩⟩
       ⟨10, 0, 0, 255⟩ ⟨0, 20, 0, 255⟩ 1 3 (by decide) (by decide)).1⟩

lemma canvas_fit (W H rw rh : Nat)
    (hfw : rw * max (W / rw) (H / rh) < 2 ^ 32)
    (hfh : rh * max (W / rw) (H / rh) < 2 ^ 32) :
    (calculate_canvas_dimensions (rw, rh) (W / rw, H / rh)
        (orientation (W / rw) (H / rh))).1 * rh
      = (calculate_canvas_dimensions (rw, rh) (W / rw, H / rh)
          (orientation (W / rw) (H / rh))).2 * rw ∧
    W - W % rw ≤ (calculate_canvas_dimensions (rw, rh) (W / rw, H / rh)
        (orientation (W / rw) (H / rh))).1 ∧
    H - H % rh ≤ (calculate_canvas_dimensions (rw, rh) (W / rw, H / rh)
        (orientation (W / rw) (H / rh))).2 := by
  have hdw := Nat.div_add_mod W rw
  have hdh := Nat.div_add_mod H rh
  by_cases hc : H / rh < W / rw
  · have ho : orientation (W / rw) (H / rh) = Orientation.Landscape := by
      unfold orientation
      rw [if_pos hc]
    rw [ho]
    simp only [calculate_canvas_dimensions]
    have hmax : max (W / rw) (H / rh) = W / rw := Nat.max_eq_left (by omega)
    rw [hmax] at hfw hfh
    rw [Nat.mod_eq_of_lt hfw, Nat.mod_eq_of_lt hfh]
    have hmul : rh * (H / rh) ≤ rh * (W / rw) := Nat.mul_le_mul_left rh (by omega)
    exact ⟨by ring, by omega, by omega⟩
  · have ho : orientation (W / rw) (H / rh) = Orientation.Portrait := by
      unfold orientation
      rw [if_neg hc]
    rw [ho]
    simp only [calculate_canvas_dimensions]
    have hmax : max (W / rw) (H / rh) = H / rh := Nat.max_eq_right (by omega)
    rw [hmax] at hfw hfh
    rw [Nat.mod_eq_of_lt hfw, Nat.mod_eq_of_lt hfh]
    have hmul : rw * (W / rw) ≤ rw * (H / rh) := Nat.mul_le_mul_left rw (by omega)
    exact ⟨by ring, by omega, by omega⟩

/-- Claim C3 counterexample: with a 1000x400 source and target ratio
(1, 5000000), the width multiplier is 1000 and the height multiplier is 0,
the orientation is Landscape, and the canvas height product
`5000000 * 1000` wraps modulo `2 ^ 32`, so the computed canvas does NOT
satisfy `canvasWidth * rh = canvasHeight * rw`: the claim fails without a
no-overflow hypothesis. -/
theorem calculate_canvas_dimensions_overflow_cex :
    ¬((calculate_canvas_dimensions (1, 5000000) (1000 / 1, 400 / 5000000)
        (orientation (1000 / 1) (400 / 5000000))).1 * 5000000
      = (calculate_canvas_dimensions (1, 5000000) (1000 / 1, 400 / 5000000)
          (orientation (1000 / 1) (400 / 5000000))).2 * 1) := by decide

/-- Claim C3 (amended): provided both `ratioComponent * multiplier` products
fit in u32 (are `< 2 ^ 32`), the canvas computed from the pipeline's
multipliers and orientation satisfies `canvasWidth * rh = canvasHeight * rw`
exactly, and both canvas dimensions are at least the corresponding trimmed
image dimensions (`W - W % rw` and `H - H % rh`).  With u32 wraparound the
equality can fail (see the counterexample). -/
theorem calculate_canvas_dimensions_spec (W H rw rh : Nat)
    (hrw : 0 < rw) (hrh : 0 < rh)
    (hfw : rw * max (W / rw) (H / rh) < 2 ^ 32)
    (hfh : rh * max (W / rw) (H / rh) < 2 ^ 32) :
    (calculate_canvas_dimensions (rw, rh) (W / rw, H / rh)
        (orientation (W / rw) (H / rh))).1 * rh
      = (calculate_canvas_dimensions (rw, rh) (W / rw, H / rh)
          (orientation (W / rw) (H / rh))).2 * rw ∧
    W - W % rw ≤ (calculate_canvas_dimensions (rw, rh) (W / rw, H / rh)
        (orientation (W / rw) (H / rh))).1 ∧
    H - H % rh ≤ (calculate_canvas_dimensions (rw, rh) (W / rw, H / rh)
        (orientation (W / rw) (H / rh))).2 :=
  canvas_fit W H rw rh hfw hfh

/-- Witness for `calculate_canvas_dimensions_spec`: the spec scenario
1000x400 with ratio (2, 1). -/
theorem calculate_canvas_dimensions_spec_witness :
    (0 < (2 : Nat)) ∧ (0 < (1 : Nat)) ∧
    (2 : Nat) * max (1000 / 2) (400 / 1) < 2 ^ 32 ∧
    (calculate_canvas_dimensions (2, 1) (1000 / 2, 400 / 1)
        (orientation (1000 / 2) (400 / 1))).1 * 1
      = (calculate_canvas_dimensions (2, 1) (1000 / 2, 400 / 1)
          (orientation (1000 / 2) (400 / 1))).2 * 2 :=
  ⟨by decide, by decide, by decide,
   (calculate_canvas_dimensions_spec 1000 400 2 1 (by decide) (by decide)
       (by decide) (by decide)).1⟩

/-- Claim C4 counterexample: a valid job (2x2147483648 source, ratio
(1, 2147483648)) reaches the compositing path with a wrapped canvas height
(`2147483648 * 2 % 2 ^ 32 = 0`), the trimmed image is NOT contained in the
canvas, and `compile_image` takes the supposedly unreachable error branch,
propagating the `copy_from` bounds error (rather than clamping). -/
theorem compile_image_copy_overflow_cex :
    compile_image (fun _ => ⟨0, 0, 0, 255⟩)
        ⟨2, 2147483648, fun _ _ => ⟨9, 9, 9, 255⟩⟩ (1, 2147483648)
      = CompileResult.copyError := by rfl

/-- Claim C4 (amended): on the compositing path, provided both
`ratioComponent * multiplier` products fit in u32, the centered copy with
per-axis offset `max((canvasDim - trimmedDim) / 2, 0)` is fully contained in
the canvas (`offset + trimmedDim ≤ canvasDim` on both axes), so the
`copy_from` bounds check passes and `compile_image` returns a composited
image; when the target region does exceed the canvas (possible only via u32
wraparound), `compile_image` propagates the error instead of clamping (see
the counterexample). -/
theorem compile_image_containment (average_color : Image → Rgba) (img : Image)
    (rw rh : Nat)
    (hnc : ¬(img.width % rw = 0 ∧ img.height % rh = 0 ∧
        img.width / rw = img.height / rh))
    (hfw : rw * max (img.width / rw) (img.height / rh) < 2 ^ 32)
    (hfh : rh * max (img.width / rw) (img.height / rh) < 2 ^ 32) :
    max (((calculate_canvas_dimensions (rw, rh)
          (img.width / rw, img.height / rh)
          (orientation (img.width / rw) (img.height / rh))).1
        - (img.width - img.width % rw)) / 2) 0
      + (img.width - img.width % rw)
      ≤ (calculate_canvas_dimensions (rw, rh) (img.width / rw, img.height / rh)
          (orientation (img.width / rw) (img.height / rh))).1 ∧
    max (((calculate_canvas_dimensions (rw, rh)
          (img.width / rw, img.height / rh)
          (orientation (img.width / rw) (img.height / rh))).2
        - (img.height - img.height % rh)) / 2) 0
      + (img.height - img.height % rh)
      ≤ (calculate_canvas_dimensions (rw, rh) (img.width / rw, img.height / rh)
          (orientation (img.width / rw) (img.height / rh))).2 ∧
    ∃ out, compile_image average_color img (rw, rh)
      = CompileResult.composited out := by
  obtain ⟨hex, hw1, hh1⟩ := canvas_fit img.width img.height rw rh hfw hfh
  have hdims := normalise_image_dims img (img.width % rw) (img.height % rh)
      (Nat.mod_le _ _) (Nat.mod_le _ _)
  refine ⟨by omega, by omega, ?_⟩
  simp only [compile_image, div]
  rw [if_pos hnc, hdims.1, hdims.2]
  split_ifs with hchk
  · exact ⟨_, rfl⟩
  · exact absurd ⟨by omega, by omega⟩ hchk

/-- Witness for `compile_image_containment`: a 300x200 image with ratio
(1, 1) composites successfully. -/
theorem compile_image_containment_witness :
    ¬((300 : Nat) % 1 = 0 ∧ (200 : Nat) % 1 = 0 ∧
        (300 : Nat) / 1 = 200 / 1) ∧
    ∃ out, compile_image (fun _ => ⟨0, 0, 0, 255⟩)
        ⟨300, 200, fun _ _ => ⟨1, 1, 1, 255⟩⟩ (1, 1)
      = CompileResult.composited out :=
  ⟨by decide,
   (compile_image_containment (fun _ => ⟨0, 0, 0, 255⟩)
       ⟨300, 200, fun _ _ => ⟨1, 1, 1, 255⟩⟩ 1 1
       (by decide) (by decide) (by decide)).2.2⟩

/-- Claim C10: canvas dimensions use unchecked u32 multiplication.  First
part: for the valid job of a 1000-pixel-wide source (height 400) with ratio
(1, 5000000), the width multiplier is 1000, the orientation is Landscape,
the product `5000000 * 1000` exceeds `u32::MAX`, and the stored canvas
height is the product wrapped modulo `2 ^ 32`, different from the true
product.  Second part: whenever both products fit in u32, the ratio
exactness and containment guarantees of the Canvas Sizer hold. -/
theorem canvas_overflow_spec :
    ((div 1000 1).1 = 1000 ∧
     2 ^ 32 ≤ 5000000 * 1000 ∧
     orientation (div 1000 1).1 (div 400 5000000).1 = Orientation.Landscape ∧
     (calculate_canvas_dimensions (1, 5000000)
         ((div 1000 1).1, (div 400 5000000).1)
         (orientation (div 1000 1).1 (div 400 5000000).1)).2
       = 5000000 * 1000 % 2 ^ 32 ∧
     (calculate_canvas_dimensions (1, 5000000)
         ((div 1000 1).1, (div 400 5000000).1)
         (orientation (div 1000 1).1 (div 400 5000000).1)).2
       ≠ 5000000 * 1000) ∧
    ∀ (W H rw rh : Nat),
      rw * max (W / rw) (H / rh) < 2 ^ 32 →
      rh * max (W / rw) (H / rh) < 2 ^ 32 →
      (calculate_canvas_dimensions (rw, rh) (W / rw, H / rh)
          (orientation (W / rw) (H / rh))).1 * rh
        = (calculate_canvas_dimensions (rw, rh) (W / rw, H / rh)
            (orientation (W / rw) (H / rh))).2 * rw ∧
      W - W % rw ≤ (calculate_canvas_dimensions (rw, rh) (W / rw, H / rh)
          (orientation (W / rw) (H / rh))).1 ∧
      H - H % rh ≤ (calculate_canvas_dimensions (rw, rh) (W / rw, H / rh)
          (orientation (W / rw) (H / rh))).2 :=
  ⟨⟨by decide, by decide, by decide, by decide, by decide⟩,
   fun W H rw rh hfw hfh => canvas_fit W H rw rh hfw hfh⟩

/-- Witness for `canvas_overflow_spec`: the fits-in-u32 part applied to a
600x300 source with ratio (2, 1). -/
theorem canvas_overflow_spec_witness :
    (2 : Nat) * max (600 / 2) (300 / 1) < 2 ^ 32 ∧
    (calculate_canvas_dimensions (2, 1) (600 / 2, 300 / 1)
        (orientation (600 / 2) (300 / 1))).1 * 1
      = (calculate_canvas_dimensions (2, 1) (600 / 2, 300 / 1)
          (orientation (600 / 2) (300 / 1))).2 * 2 :=
  ⟨by decide, (canvas_overflow_spec.2 600 300 2 1 (by decide) (by decide)).1⟩

lemma sizeAux_le (fuel : Nat) :
    ∀ k n : Nat, n < 2 ^ k → k ≤ fuel → sizeAux fuel n ≤ k := by
  induction fuel with
  | zero =>
    intro k n hn hk
    simp [sizeAux]
  | succ fuel ih =>
    intro k n hn hk
    by_cases h0 : n = 0
    · simp [sizeAux, h0]
    · have hk1 : 1 ≤ k := by
        rcases Nat.eq_zero_or_pos k with hk0 | hk0
        · subst hk0; norm_num at hn; omega
        · omega
      have hpow : 2 ^ k = 2 ^ (k - 1) * 2 := by
        rw [← pow_succ]
        congr 1
        omega
      have hdiv : n / 2 < 2 ^ (k - 1) := by omega
      have hrec := ih (k - 1) (n / 2) hdiv (by omega)
      simp only [sizeAux]
      rw [if_neg h0]
      omega

lemma le_rne (n s : Nat) : n / 2 ^ s ≤ rne n s := by
  simp only [rne]
  split_ifs <;> omega

lemma rne_mul_le (n s : Nat) : 2 * (rne n s * 2 ^ s) ≤ 2 * n + 2 ^ s := by
  have hdm : n / 2 ^ s * 2 ^ s + n % 2 ^ s = n := Nat.div_add_mod' n (2 ^ s)
  simp only [rne]
  split_ifs with h1 h2 h3 <;> (try simp only [add_mul, one_mul]) <;> omega

lemma mul_le_rne_mul (a n s : Nat) (h : a * 2 ^ s ≤ n) :
    a * 2 ^ s ≤ rne n s * 2 ^ s := by
  have hpos : 0 < 2 ^ s := pow_pos (by norm_num) s
  have h1 : a ≤ n / 2 ^ s := (Nat.le_div_iff_mul_le hpos).mpr h
  exact Nat.mul_le_mul_right _ (le_trans h1 (le_rne n s))

lemma round24_eq_self (n : Nat) (h : n ≤ 2 ^ 24) : round24 n = n := by
  by_cases h1 : n < 2 ^ 24
  · unfold round24
    rw [if_pos h1]
  · have h2 : n = 2 ^ 24 := by omega
    subst h2
    decide

lemma calculate_edge_length_eq (L : Nat) (hL : L ≤ 2 ^ 24) :
    calculate_edge_length L = L / 20 := by
  by_cases hL2 : L < 2
  · interval_cases L <;> decide
  · push_neg at hL2
    have hrL : round24 L = L := round24_eq_self L hL
    have hLmul : 2 * 13421773 ≤ L * 13421773 := Nat.mul_le_mul_right _ hL2
    have hLmul2 : L * 13421773 ≤ 2 ^ 24 * 13421773 := Nat.mul_le_mul_right _ hL
    have hbig : ¬ L * 13421773 < 2 ^ 24 := by omega
    have hn48 : L * 13421773 < 2 ^ 48 := by omega
    have hbl : bitlen (L * 13421773) ≤ 48 :=
      sizeAux_le 64 48 (L * 13421773) hn48 (by norm_num)
    have hps : 2 ^ (bitlen (L * 13421773) - 24) ≤ 2 ^ 24 :=
      Nat.pow_le_pow_right (by norm_num) (by omega)
    have hj13 : L % 20 * 13421773 ≤ 19 * 13421773 :=
      Nat.mul_le_mul_right _ (by omega)
    have hm20 : L / 20 ≤ 838860 := by omega
    have hrn : round24 (L * 13421773)
        = rne (L * 13421773) (bitlen (L * 13421773) - 24)
          * 2 ^ (bitlen (L * 13421773) - 24) := by
      unfold round24
      rw [if_neg hbig]
    have hnm : L * 13421773
        = L / 20 * 2 ^ 28 + (4 * (L / 20) + L % 20 * 13421773) := by omega
    have he : L / 20 * 2 ^ (28 - (bitlen (L * 13421773) - 24))
          * 2 ^ (bitlen (L * 13421773) - 24) = L / 20 * 2 ^ 28 := by
      rw [mul_assoc, ← pow_add]
      congr 2
      omega
    have hlow : L / 20 * 2 ^ 28
        ≤ rne (L * 13421773) (bitlen (L * 13421773) - 24)
          * 2 ^ (bitlen (L * 13421773) - 24) :=
      calc L / 20 * 2 ^ 28
          = L / 20 * 2 ^ (28 - (bitlen (L * 13421773) - 24))
            * 2 ^ (bitlen (L * 13421773) - 24) := he.symm
        _ ≤ rne (L * 13421773) (bitlen (L * 13421773) - 24)
            * 2 ^ (bitlen (L * 13421773) - 24) :=
            mul_le_rne_mul _ _ _ (by rw [he]; omega)
    have hup2 := rne_mul_le (L * 13421773) (bitlen (L * 13421773) - 24)
    have hup : rne (L * 13421773) (bitlen (L * 13421773) - 24)
          * 2 ^ (bitlen (L * 13421773) - 24)
        < (L / 20 + 1) * 2 ^ 28 := by omega
    have hfloor : rne (L * 13421773) (bitlen (L * 13421773) - 24)
          * 2 ^ (bitlen (L * 13421773) - 24) / 2 ^ 28 = L / 20 :=
      Nat.div_eq_of_lt_le hlow hup
    unfold calculate_edge_length
    rw [hrL, hrn, hfloor]
    omega

/-- Claim C7 counterexample: the claimed formula
`edgeLength = floor(axisLength * 0.05)` (i.e. `axisLength / 20`) fails for
the pipeline-reachable axis length 4294967294 (a 4294967295x4294967294
source with ratio (1, 1) is non-conformant, Landscape, untrimmed): the f32
computation yields 214748368, while `4294967294 / 20 = 214748364`. -/
theorem calculate_edge_length_cex :
    calculate_edge_length 4294967294 ≠ 4294967294 / 20 := by decide

/-- Claim C7 (amended): for sampled axis lengths up to `2 ^ 24` (f32
rounding can deviate above that; see the counterexample), the edge length is
exactly `floor(axisLength * 0.05) = axisLength / 20`; for Landscape the two
strips are the top `edgeLength` rows at full width and the bottom
`edgeLength` rows at full width (starting at `height - edgeLength`); for
Portrait they are the left and right `edgeLength` columns at full height;
each strip is reduced to a single color by the external 1x1
nearest-neighbor downscale `average_color`, the first color from the
top/left strip, the second from the bottom/right strip. -/
theorem aggregate_edge_colors_spec (average_color : Image → Rgba)
    (img : Image) :
    (img.height ≤ 2 ^ 24 →
      calculate_edge_length img.height = img.height / 20 ∧
      aggregate_edge_colors average_color img Orientation.Landscape
        = (average_color (crop_imm img 0 0 img.width (img.height / 20)),
           average_color (crop_imm img 0 (img.height - img.height / 20)
             img.width (img.height / 20))) ∧
      (crop_imm img 0 0 img.width (img.height / 20)).width = img.width ∧
      (crop_imm img 0 0 img.width (img.height / 20)).height = img.height / 20 ∧
      (crop_imm img 0 (img.height - img.height / 20) img.width
          (img.height / 20)).width = img.width ∧
      (crop_imm img 0 (img.height - img.height / 20) img.width
          (img.height / 20)).height = img.height / 20 ∧
      (∀ i j, (crop_imm img 0 0 img.width (img.height / 20)).pix i j
          = img.pix i j) ∧
      (∀ i j, (crop_imm img 0 (img.height - img.height / 20) img.width
          (img.height / 20)).pix i j
          = img.pix i (img.height - img.height / 20 + j))) ∧
    (img.width ≤ 2 ^ 24 →
      calculate_edge_length img.width = img.width / 20 ∧
      aggregate_edge_colors average_color img Orientation.Portrait
        = (average_color (crop_imm img 0 0 (img.width / 20) img.height),
           average_color (crop_imm img (img.width - img.width / 20) 0
             (img.width / 20) img.height)) ∧
      (crop_imm img 0 0 (img.width / 20) img.height).width = img.width / 20 ∧
      (crop_imm img 0 0 (img.width / 20) img.height).height = img.height ∧
      (crop_imm img (img.width - img.width / 20) 0 (img.width / 20)
          img.height).width = img.width / 20 ∧
      (crop_imm img (img.width - img.width / 20) 0 (img.width / 20)
          img.height).height = img.height ∧
      (∀ i j, (crop_imm img 0 0 (img.width / 20) img.height).pix i j
          = img.pix i j) ∧
      (∀ i j, (crop_imm img (img.width - img.width / 20) 0 (img.width / 20)
          img.height).pix i j
          = img.pix (img.width - img.width / 20 + i) j)) := by
  have hdw : img.width / 20 ≤ img.width := Nat.div_le_self _ _
  have hdh : img.height / 20 ≤ img.height := Nat.div_le_self _ _
  constructor
  · intro hH
    have he := calculate_edge_length_eq img.height hH
    refine ⟨he, ?_, ?_, ?_, ?_, ?_, ?_, ?_⟩
    · unfold aggregate_edge_colors
      rw [he]
    · unfold crop_imm
      simp
    · unfold crop_imm
      simp
      all_goals omega
    · unfold crop_imm
      simp
    · unfold crop_imm
      simp
      all_goals omega
    · intro i j
      unfold crop_imm
      simp
    · intro i j
      unfold crop_imm
      simp
  · intro hW
    have he := calculate_edge_length_eq img.width hW
    refine ⟨he, ?_, ?_, ?_, ?_, ?_, ?_, ?_⟩
    · unfold aggregate_edge_colors
      rw [he]
    · unfold crop_imm
      simp
      all_goals omega
    · unfold crop_imm
      simp
    · unfold crop_imm
      simp
      all_goals omega
    · unfold crop_imm
      simp
    · intro i j
      unfold crop_imm
      simp
    · intro i j
      unfold crop_imm
      simp

/-- Witness for `aggregate_edge_colors_spec`: a 40x30 image; the Landscape
edge length is `30 / 20 = 1` and the Portrait edge length is `40 / 20 = 2`. -/
theorem aggregate_edge_colors_spec_witness :
    (30 : Nat) ≤ 2 ^ 24 ∧ (40 : Nat) ≤ 2 ^ 24 ∧
    calculate_edge_length 30 = 30 / 20 ∧ calculate_edge_length 40 = 40 / 20 :=
  ⟨by decide, by decide,
   ((aggregate_edge_colors_spec (fun _ => ⟨0, 0, 0, 0⟩)
       ⟨40, 30, fun i j => ⟨i, j, 0, 255⟩⟩).1 (by decide)).1,
   ((aggregate_edge_colors_spec (fun _ => ⟨0, 0, 0, 0⟩)
       ⟨40, 30, fun i j => ⟨i, j, 0, 255⟩⟩).2 (by decide)).1⟩

/-- Claim C8, code evaluated at the failing input: a 10x11 source with ratio
(1, 1) is non-conformant (Portrait), the sampled axis is the width 10 < 20,
the computed edge length is 0, and BOTH strips handed to `average_color` by
`aggregate_edge_colors` are zero-width crops — the code contains no fallback
(no minimum 1-pixel strip), contradicting the claim. -/
theorem edge_length_zero_strips :
    calculate_edge_length 10 = 0 ∧
    orientation (div 10 1).1 (div 11 1).1 = Orientation.Portrait ∧
    (crop_imm ⟨10, 11, fun i j => ⟨i, j, 0, 255⟩⟩ 0 0
        (calculate_edge_length 10) 11).width = 0 ∧
    (crop_imm ⟨10, 11, fun i j => ⟨i, j, 0, 255⟩⟩ (10 - calculate_edge_length 10)
        0 (calculate_edge_length 10) 11).width = 0 :=
  ⟨by decide, by decide, by decide, by decide⟩

/-- Claim C9 counterexample: for the 101x100 source with ratio (1, 1) the
multipliers are (101, 100) and the orientation Landscape, so
`calculate_canvas_dimensions` uses the WIDTH multiplier: the canvas is
(101, 101), not (100, 100) as the claim states. -/
theorem scenario_101x100_cex :
    calculate_canvas_dimensions (1, 1) ((div 101 1).1, (div 100 1).1)
        (orientation (div 101 1).1 (div 100 1).1) ≠ (100, 100) := by decide

/-- Claim C9 (amended): for the 101x100 source with ratio (1, 1):
`widthMultiplier = 101`, `heightMultiplier = 100`, both overflows 0,
orientation Landscape, edge length `floor(100 * 0.05) = 5`, no trimming
(trimmed dimensions stay 101x100), canvas (101, 101) — sized off the width
multiplier, so the source fits and `saturating_sub` never clips a negative:
both centering offsets are 0 (`(101 - 101) / 2` and `(101 - 100) / 2`), and
the pipeline composites successfully. -/
theorem scenario_101x100 :
    div 101 1 = (101, 0) ∧
    div 100 1 = (100, 0) ∧
    orientation 101 100 = Orientation.Landscape ∧
    calculate_edge_length 100 = 5 ∧
    (normalise_image ⟨101, 100, fun i j => ⟨i, j, 0, 255⟩⟩ (0, 0)).width = 101 ∧
    (normalise_image ⟨101, 100, fun i j => ⟨i, j, 0, 255⟩⟩ (0, 0)).height = 100 ∧
    calculate_canvas_dimensions (1, 1) (101, 100) (orientation 101 100)
      = (101, 101) ∧
    (101 - 101) / 2 = 0 ∧ (101 - 100) / 2 = 0 ∧
    ∃ out, compile_image (fun _ => ⟨0, 0, 0, 255⟩)
        ⟨101, 100, fun i j => ⟨i, j, 0, 255⟩⟩ (1, 1)
      = CompileResult.composited out :=
  ⟨by decide, by decide, by decide, by decide, by decide, by decide, by decide,
   by decide, by decide, ⟨_, rfl⟩⟩

end ImageBgExtender
